import Mathlib

/-!
Verification of the audio preview controller of
`web-wasm-audio-process-example` against its specification.

The development shallowly embeds the relevant code of
`src/example/src/App.tsx` and `src/example/src/worker.ts`:

* the duration estimator `getAudioDuration` (App.tsx lines 184 to 229),
* the source swap scheduler `updateAudioSource` together with its
  completion handler `handleReady` (App.tsx lines 58 to 126), modelled as
  a state machine driven by `present` and `ready` (canplaythrough) events,
* the worker session wrapper `combine` (worker.ts lines 25 to 36),
* the orchestrator operations `updateVolume` and `reset`
  (App.tsx lines 169 to 182 and 231 to 235).

JavaScript DataView reads that can throw a RangeError are modelled with
Option, where `none` is a thrown exception.  The numeric duration value,
a JavaScript float in the source, is modelled over the rationals; every
arithmetic step a claim evaluates is exact in double precision, and the
displayed value only depends on integer floors that agree between the
two readings at the inputs considered here.
-/

/-! ## Byte buffers and DataView reads -/

/-- A JavaScript ArrayBuffer viewed through a DataView: a length and the
byte at each index.  Only indices below `len` are meaningful; reads are
made through `getUint8?`, which models the bounds check of DataView. -/
structure JSBuffer where
  len : Nat
  get : Nat → Nat

/-- The byte stored at index `i`; reduced modulo 256 so that the model
matches the byte range DataView guarantees. -/
def byteAt (b : JSBuffer) (i : Nat) : Nat := b.get i % 256

/-- Model of `view.getUint8(i)`: `none` models the RangeError thrown by
DataView on an out-of-bounds read. -/
def getUint8? (b : JSBuffer) (i : Nat) : Option Nat :=
  if i < b.len then some (byteAt b i) else none

/-! ## Duration estimator (App.tsx, getAudioDuration) -/

/-- The offset at which the frame-sync scan starts, from the source:
if bytes 0..2 are 0x49 0x44 0x33 the size is read from bytes 6..9 as
`(b6 << 21) | (b7 << 14) | (b8 << 7) | b9` (note: the source applies no
mask to any of the four bytes) and the scan starts at `size + 10`;
otherwise it starts at 0.  `none` models a thrown RangeError. -/
def id3Offset (b : JSBuffer) : Option Nat :=
  (getUint8? b 0).bind fun b0 =>
  if b0 = 0x49 then
    (getUint8? b 1).bind fun b1 =>
    if b1 = 0x44 then
      (getUint8? b 2).bind fun b2 =>
      if b2 = 0x33 then
        (getUint8? b 6).bind fun s6 =>
        (getUint8? b 7).bind fun s7 =>
        (getUint8? b 8).bind fun s8 =>
        (getUint8? b 9).bind fun s9 =>
        some ((((s6 <<< 21) ||| (s7 <<< 14)) ||| (s8 <<< 7) ||| s9) + 10)
      else some 0
    else some 0
  else some 0

/-- Modelled from the spec: the scan-start offset as the specification
words it, with a synch-safe size in which each of the four size bytes
contributes only its low 7 bits (bit 7 ignored).  Kept for comparison
with `id3Offset`, the definition taken from the source. -/
def id3OffsetSyncSafeSpec (b : JSBuffer) : Option Nat :=
  (getUint8? b 0).bind fun b0 =>
  if b0 = 0x49 then
    (getUint8? b 1).bind fun b1 =>
    if b1 = 0x44 then
      (getUint8? b 2).bind fun b2 =>
      if b2 = 0x33 then
        (getUint8? b 6).bind fun s6 =>
        (getUint8? b 7).bind fun s7 =>
        (getUint8? b 8).bind fun s8 =>
        (getUint8? b 9).bind fun s9 =>
        some (((((s6 &&& 0x7f) <<< 21) ||| ((s7 &&& 0x7f) <<< 14)) |||
               ((s8 &&& 0x7f) <<< 7) ||| (s9 &&& 0x7f)) + 10)
      else some 0
    else some 0
  else some 0

/-- The bitrate table of the source, in kbps; indices 0 and 15 hold 0. -/
def bitrates : List Nat :=
  [0, 32, 40, 48, 56, 64, 80, 96, 112, 128, 160, 192, 224, 256, 320, 0]

/-- The scan loop of the source, with explicit fuel so the recursion is
structural.  The loop runs while `offset < len - 4` (inside the loop all
reads are in bounds, so `byteAt` is used directly, as the source does);
it stops at the first byte pair `0xff, x` with `x &&& 0xe0 = 0xe0`. -/
def findSyncFuel (b : JSBuffer) : Nat → Nat → Option Nat
  | 0, _ => none
  | fuel + 1, offset =>
    if offset < b.len - 4 then
      if byteAt b offset = 0xff ∧ byteAt b (offset + 1) &&& 0xe0 = 0xe0 then
        some offset
      else
        findSyncFuel b fuel (offset + 1)
    else none

/-- Offset of the first frame sync at or after `start`, or `none` when
the scan runs off the end of the buffer.  The fuel `b.len - 4 - start`
covers every loop iteration the source performs. -/
def findSync (b : JSBuffer) (start : Nat) : Option Nat :=
  findSyncFuel b (b.len - 4 - start) start

/-- The `durationSeconds` value of the source: 0 unless a sync is found
and the indexed bitrate is positive, in which case
`(file.size * 8) / (bitrate * 1000)`.  The file size equals the buffer
length since the same ArrayBuffer backs both. -/
def durationSeconds (b : JSBuffer) (start : Nat) : ℚ :=
  match findSync b start with
  | none => 0
  | some i =>
    let byte2 := byteAt b (i + 2)
    let bitrate := bitrates.getD ((byte2 >>> 4) &&& 15) 0
    if bitrate > 0 then ((b.len : ℚ) * 8) / ((bitrate : ℚ) * 1000) else 0

/-- JavaScript float remainder, for the nonnegative operands this
program feeds it (durationSeconds is never negative, the divisors are
3600 and 60): `a - c * floor (a / c)`. -/
def jsMod (a c : ℚ) : ℚ := a - c * (⌊a / c⌋ : ℚ)

/-- Model of `String.prototype.padStart(2, "0")`. -/
def pad2 (s : String) : String :=
  if s.length < 2 then String.mk (List.replicate (2 - s.length) '0') ++ s else s

/-- The HH:MM:SS formatting of the source.  `Math.floor` is the integer
floor; its result is a nonnegative integer on every path of this
program, so printing it through `Int.repr` matches the JavaScript
`toString`. -/
def formatHMS (d : ℚ) : String :=
  let h := pad2 (Int.repr ⌊d / 3600⌋)
  let m := pad2 (Int.repr ⌊jsMod d 3600 / 60⌋)
  let s := pad2 (Int.repr ⌊jsMod d 60⌋)
  h ++ ":" ++ m ++ ":" ++ s

/-- `getAudioDuration` from the source: `none` models a thrown
RangeError, `some s` the returned duration string. -/
def getAudioDuration (b : JSBuffer) : Option String :=
  (id3Offset b).map fun offset => formatHMS (durationSeconds b offset)

/-- Helper: the zero duration formats to the zero string. -/
theorem formatHMS_zero : formatHMS 0 = "00:00:00" := by
  have h1 : ⌊(0 : ℚ) / 3600⌋ = 0 := by norm_num
  have h2 : ⌊jsMod 0 3600 / 60⌋ = 0 := by norm_num [jsMod]
  have h3 : ⌊jsMod 0 60⌋ = 0 := by norm_num [jsMod]
  rw [formatHMS, h1, h2, h3]
  decide

/-- Helper: 625 seconds format to 00:10:25. -/
theorem formatHMS_625 : formatHMS 625 = "00:10:25" := by
  have h1 : ⌊(625 : ℚ) / 3600⌋ = 0 := by norm_num
  have h2 : ⌊jsMod 625 3600 / 60⌋ = 10 := by norm_num [jsMod]
  have h3 : ⌊jsMod 625 60⌋ = 25 := by norm_num [jsMod]
  rw [formatHMS, h1, h2, h3]
  decide

/-! ## Swap scheduler (App.tsx, updateAudioSource and handleReady)

The scheduler state gathers the mutable refs of the component and the
observable state of the two audio elements.  Mixed results are
identified by opaque numbers; blob URLs created by URL.createObjectURL
are modelled by a fresh-name counter.  Two events drive the machine:
a call to updateAudioSource with a result, and the canplaythrough event
of the hidden loader element, which runs handleReady.  The Boolean the
ready event carries tells whether the mainAudio.play() promise resolves
(browser autoplay policy may reject it). -/

/-- State of the swap scheduler. -/
structure SchedState where
  /-- isSwappingRef.current -/
  isSwapping : Bool
  /-- pendingUpdateRef.current: the coalesced latest queued result. -/
  pending : Option Nat
  /-- The loader element's current object URL and the result it holds,
  with the canplaythrough listener attached; none when no preload is in
  flight. -/
  inFlight : Option (Nat × Nat)
  /-- mainAudio.src: none models the initial empty string. -/
  mainSrc : Option Nat
  /-- mainAudio.currentTime. -/
  mainTime : ℚ
  /-- mainAudio.paused. -/
  mainPaused : Bool
  /-- Fresh-name supply for URL.createObjectURL. -/
  nextUrl : Nat
  /-- URLs passed to URL.revokeObjectURL, in call order. -/
  released : List Nat
  /-- Results bound to the visible player, in the order they went live. -/
  liveLog : List Nat
deriving DecidableEq

/-- updateAudioSource: when a swap is already running the new result
only replaces the pending slot; otherwise the swap flag is raised, a
fresh object URL is created and the loader element starts preloading. -/
def updateAudioSource (s : SchedState) (r : Nat) : SchedState :=
  if s.isSwapping then
    { s with pending := some r }
  else
    { s with
      isSwapping := true
      inFlight := some (s.nextUrl, r)
      nextUrl := s.nextUrl + 1 }

/-- handleReady, run by the canplaythrough event of the loader: capture
time and play state from the visible player, revoke its previous URL if
it has one, bind the new URL, restore the captured time, resume only if
it was playing (the element is paused right after load, and a rejected
play() leaves it paused), lower the swap flag, drop the listener, and
hand any pending result straight back to updateAudioSource. -/
def handleReady (s : SchedState) (playOk : Bool) : SchedState :=
  match s.inFlight with
  | none => s
  | some (url, r) =>
    let wasPlaying := !s.mainPaused
    let s1 : SchedState :=
      { s with
        inFlight := none
        isSwapping := false
        mainSrc := some url
        mainPaused := !(wasPlaying && playOk)
        released :=
          match s.mainSrc with
          | some u => s.released ++ [u]
          | none => s.released
        liveLog := s.liveLog ++ [r] }
    match s1.pending with
    | some p => updateAudioSource { s1 with pending := none } p
    | none => s1

/-- The two events the scheduler reacts to. -/
inductive SchedEv where
  | present (r : Nat)
  | ready (playOk : Bool)
deriving DecidableEq

/-- One scheduler step. -/
def schedStep (s : SchedState) : SchedEv → SchedState
  | .present r => updateAudioSource s r
  | .ready ok => handleReady s ok

/-- A run of the scheduler over a list of events. -/
def schedRun (s : SchedState) (evs : List SchedEv) : SchedState :=
  evs.foldl schedStep s

/-- The state of the component when it mounts: no swap running, nothing
pending or loaded, the visible player empty and paused. -/
def schedInit : SchedState :=
  { isSwapping := false
    pending := none
    inFlight := none
    mainSrc := none
    mainTime := 0
    mainPaused := true
    nextUrl := 0
    released := []
    liveLog := [] }

/-! ## Worker session wrapper (worker.ts, combine) -/

/-- The closed set of audio format tags of the wasm interface. -/
inductive SingleAudioFileType where
  | Wav
  | Mpeg
  | Ogg
deriving DecidableEq

/-- What the wasm combiner.combine call resolves with, as the worker
sees it: a value that either carries the bytes payload field or lacks
it (the structural failure signal). -/
structure EngineCombineResult where
  /-- none models the absence of the bytes field on the result value. -/
  bytes : Option (List Nat)
  type : SingleAudioFileType
deriving DecidableEq

/-- The value the worker session returns on success. -/
structure MixedAudioResult where
  bytes : List Nat
  type : SingleAudioFileType
deriving DecidableEq

/-- The failure of the session combine: the worker throws the engine
result value itself. -/
inductive MixError where
  | engineError (r : EngineCombineResult)
deriving DecidableEq

/-- The combine method of the proxy built in createCombiner: await the
engine result (passed here as an argument, the call itself being
external), throw it when the bytes field is absent, otherwise return
the bytes and type. -/
def workerCombine (resultFile : EngineCombineResult) :
    Except MixError MixedAudioResult :=
  match resultFile.bytes with
  | none => .error (.engineError resultFile)
  | some bs => .ok { bytes := bs, type := resultFile.type }

/-! ## Orchestrator (App.tsx, updateVolume and reset) -/

/-- One entry of the files state: id, display name, estimated duration
and current volume. -/
structure AudioFile where
  id : String
  name : String
  duration : String
  volume : Nat
deriving DecidableEq

/-- The orchestrator state: the files list, the combiner ref (an opaque
handle number, none when null), the file input value, the scheduler
state, and instrumentation counting free() and combine() calls on the
engine side. -/
structure AppState where
  files : List AudioFile
  combiner : Option Nat
  fileInputValue : String
  sched : SchedState
  freeCalls : Nat
  combineCalls : Nat
deriving DecidableEq

/-- updateVolume: rebuild the files list with the volume of every entry
whose id matches replaced, store it, and only if a combiner is held
call its combine with the new volume vector and hand the result to
updateAudioSource.  The awaited mixed result is an oracle argument; it
is only consulted on that branch. -/
def updateVolume (st : AppState) (id : String) (value : Nat) (mix : Nat) :
    AppState :=
  let updatedFiles :=
    st.files.map fun f => if f.id = id then { f with volume := value } else f
  let st' := { st with files := updatedFiles }
  match st'.combiner with
  | some _ =>
    { st' with
      combineCalls := st'.combineCalls + 1
      sched := updateAudioSource st'.sched mix }
  | none => st'

/-- reset: empty the files list, null the combiner ref and clear the
file input.  Nothing else is touched: no free() call, no URL revocation,
no change to either audio element. -/
def reset (st : AppState) : AppState :=
  { st with files := [], combiner := none, fileInputValue := "" }

/-! ## Scheduler invariants -/

/-- How many URLs an optional src field holds. -/
def srcCount : Option Nat → Nat
  | some _ => 1
  | none => 0

/-- The inductive invariant of the scheduler: the swap flag tracks the
in-flight preload; every live swap so far has released exactly the URLs
that are no longer live; revoked URLs are pairwise distinct; all issued
URLs are below the fresh counter; the live URL and the in-flight URL
were never revoked, and they differ. -/
structure SchedInv (s : SchedState) : Prop where
  flagIff : s.isSwapping = true ↔ s.inFlight.isSome = true
  count : s.released.length + srcCount s.mainSrc = s.liveLog.length
  nodup : s.released.Nodup
  relLt : ∀ u ∈ s.released, u < s.nextUrl
  live : ∀ u, s.mainSrc = some u → u < s.nextUrl ∧ u ∉ s.released
  flight : ∀ u r, s.inFlight = some (u, r) →
    u < s.nextUrl ∧ u ∉ s.released ∧ s.mainSrc ≠ some u
  liveSrc : s.liveLog ≠ [] → s.mainSrc.isSome = true

/-- The initial state satisfies the invariant. -/
theorem schedInv_init : SchedInv schedInit := by
  constructor <;> simp [schedInit, srcCount]

/-- updateAudioSource preserves the invariant. -/
theorem schedInv_present (s : SchedState) (r : Nat) (h : SchedInv s) :
    SchedInv (updateAudioSource s r) := by
  obtain ⟨hflag, hcount, hnodup, hrel, hlive, hflight, hlivesrc⟩ := h
  by_cases hs : s.isSwapping
  · have hstep : updateAudioSource s r = { s with pending := some r } := by
      simp [updateAudioSource, hs]
    rw [hstep]
    exact ⟨hflag, hcount, hnodup, hrel, hlive, hflight, hlivesrc⟩
  · have hstep : updateAudioSource s r =
        { s with
          isSwapping := true
          inFlight := some (s.nextUrl, r)
          nextUrl := s.nextUrl + 1 } := by
      simp [updateAudioSource, hs]
    rw [hstep]
    constructor
    · simp
    · exact hcount
    · exact hnodup
    · exact fun u hu => Nat.lt_succ_of_lt (hrel u hu)
    · intro u hu
      obtain ⟨h1, h2⟩ := hlive u hu
      exact ⟨Nat.lt_succ_of_lt h1, h2⟩
    · intro u r' hur
      simp only [Option.some.injEq, Prod.mk.injEq] at hur
      obtain ⟨rfl, rfl⟩ := hur
      refine ⟨Nat.lt_succ_self _, fun hmem => ?_, fun hsrc => ?_⟩
      · exact Nat.lt_irrefl _ (hrel _ hmem)
      · exact Nat.lt_irrefl _ ((hlive _ hsrc).1)
    · exact hlivesrc

/-- After the swap proper inside handleReady, the released list grows by
the previous live URL when there was one. -/
def releasedAfter (s : SchedState) : List Nat :=
  match s.mainSrc with
  | some u => s.released ++ [u]
  | none => s.released

/-- handleReady preserves the invariant. -/
theorem schedInv_ready (s : SchedState) (ok : Bool) (h : SchedInv s) :
    SchedInv (handleReady s ok) := by
  obtain ⟨hflag, hcount, hnodup, hrel, hlive, hflight, hlivesrc⟩ := h
  match hif : s.inFlight with
  | none =>
    have hstep : handleReady s ok = s := by simp [handleReady, hif]
    rw [hstep]
    exact ⟨hflag, hcount, hnodup, hrel, hlive, hflight, hlivesrc⟩
  | some (url, r) =>
    obtain ⟨hulen, hurel, husrc⟩ := hflight url r hif
    -- facts about the grown released list
    have hnodup' : (releasedAfter s).Nodup := by
      cases hsrc : s.mainSrc with
      | none => simpa [releasedAfter, hsrc] using hnodup
      | some u =>
        have h2 := (hlive u hsrc).2
        simp [releasedAfter, hsrc, List.nodup_append, hnodup, h2]
    have hrelLt' : ∀ v ∈ releasedAfter s, v < s.nextUrl := by
      intro v hv
      cases hsrc : s.mainSrc with
      | none =>
        rw [releasedAfter, hsrc] at hv
        exact hrel v hv
      | some u =>
        rw [releasedAfter, hsrc] at hv
        rcases List.mem_append.mp hv with hv | hv
        · exact hrel v hv
        · simp only [List.mem_singleton] at hv
          exact hv ▸ (hlive u hsrc).1
    have hlen' : (releasedAfter s).length = s.liveLog.length := by
      cases hsrc : s.mainSrc with
      | none =>
        have := hcount
        rw [hsrc] at this
        simp only [srcCount] at this
        simpa [releasedAfter, hsrc] using this
      | some u =>
        have := hcount
        rw [hsrc] at this
        simp only [srcCount] at this
        simp only [releasedAfter, hsrc, List.length_append, List.length_singleton]
        omega
    have hu' : url ∉ releasedAfter s := by
      cases hsrc : s.mainSrc with
      | none => simpa [releasedAfter, hsrc] using hurel
      | some u =>
        rw [releasedAfter, hsrc]
        simp only [List.mem_append, List.mem_singleton]
        rintro (hmem | rfl)
        · exact hurel hmem
        · exact husrc hsrc
    match hp : s.pending with
    | none =>
      have hstep : handleReady s ok =
          { s with
            isSwapping := false
            inFlight := none
            mainSrc := some url
            mainPaused := !(!s.mainPaused && ok)
            released := releasedAfter s
            liveLog := s.liveLog ++ [r] } := by
        simp [handleReady, hif, hp, releasedAfter]
      rw [hstep]
      constructor
      · simp
      · simp only [srcCount, List.length_append, List.length_singleton]
        omega
      · exact hnodup'
      · exact hrelLt'
      · intro u hu
        simp only [Option.some.injEq] at hu
        exact hu ▸ ⟨hulen, hu'⟩
      · intro u r' hu
        simp at hu
      · exact fun _ => rfl
    | some p =>
      have hstep : handleReady s ok =
          { s with
            isSwapping := true
            pending := none
            inFlight := some (s.nextUrl, p)
            nextUrl := s.nextUrl + 1
            mainSrc := some url
            mainPaused := !(!s.mainPaused && ok)
            released := releasedAfter s
            liveLog := s.liveLog ++ [r] } := by
        simp [handleReady, hif, hp, updateAudioSource, releasedAfter]
      rw [hstep]
      constructor
      · simp
      · simp only [srcCount, List.length_append, List.length_singleton]
        omega
      · exact hnodup'
      · exact fun v hv => Nat.lt_succ_of_lt (hrelLt' v hv)
      · intro u hu
        simp only [Option.some.injEq] at hu
        exact hu ▸ ⟨Nat.lt_succ_of_lt hulen, hu'⟩
      · intro u r' hu
        simp only [Option.some.injEq, Prod.mk.injEq] at hu
        obtain ⟨rfl, rfl⟩ := hu
        refine ⟨Nat.lt_succ_self _, fun hmem => ?_, fun hequ => ?_⟩
        · exact Nat.lt_irrefl _ (hrelLt' _ hmem)
        · simp only [Option.some.injEq] at hequ
          exact Nat.lt_irrefl _ (hequ ▸ hulen)
      · exact fun _ => rfl

/-- Every step preserves the invariant. -/
theorem schedInv_step (s : SchedState) (e : SchedEv) (h : SchedInv s) :
    SchedInv (schedStep s e) := by
  cases e with
  | present r => exact schedInv_present s r h
  | ready ok => exact schedInv_ready s ok h

/-- Every run preserves the invariant. -/
theorem schedInv_run (evs : List SchedEv) (s : SchedState) (h : SchedInv s) :
    SchedInv (schedRun s evs) := by
  induction evs generalizing s with
  | nil => exact h
  | cons e evs ih => exact ih _ (schedInv_step s e h)

/-- Every state reachable from the mount state satisfies the invariant. -/
theorem schedInv_reachable (evs : List SchedEv) :
    SchedInv (schedRun schedInit evs) :=
  schedInv_run evs schedInit schedInv_init

/-! ## Provenance of live results -/

/-- A result value sitting in one of the two hand-off slots of the
scheduler: the in-flight preload or the coalesced pending slot. -/
def SlotVal (s : SchedState) (x : Nat) : Prop :=
  (∃ u, s.inFlight = some (u, x)) ∨ s.pending = some x

/-- One step can only make a slotted value live, and can only slot a
value that was already slotted or that the step itself presents. -/
theorem schedStep_provenance (s : SchedState) (e : SchedEv) (x : Nat) :
    (x ∈ (schedStep s e).liveLog → x ∈ s.liveLog ∨ SlotVal s x) ∧
    (SlotVal (schedStep s e) x → SlotVal s x ∨ e = .present x) := by
  cases e with
  | present r =>
    by_cases hs : s.isSwapping
    · have hstep : schedStep s (.present r) = { s with pending := some r } := by
        simp [schedStep, updateAudioSource, hs]
      rw [hstep]
      refine ⟨fun h => Or.inl h, fun h => ?_⟩
      rcases h with ⟨u, hu⟩ | hpend
      · exact Or.inl (Or.inl ⟨u, hu⟩)
      · simp only [Option.some.injEq] at hpend
        exact Or.inr (by rw [hpend])
    · have hstep : schedStep s (.present r) =
          { s with
            isSwapping := true
            inFlight := some (s.nextUrl, r)
            nextUrl := s.nextUrl + 1 } := by
        simp [schedStep, updateAudioSource, hs]
      rw [hstep]
      refine ⟨fun h => Or.inl h, fun h => ?_⟩
      rcases h with ⟨u, hu⟩ | hpend
      · simp only [Option.some.injEq, Prod.mk.injEq] at hu
        exact Or.inr (by rw [hu.2])
      · exact Or.inl (Or.inr hpend)
  | ready ok =>
    match hif : s.inFlight with
    | none =>
      have hstep : schedStep s (.ready ok) = s := by
        simp [schedStep, handleReady, hif]
      rw [hstep]
      exact ⟨fun h => Or.inl h, fun h => Or.inl h⟩
    | some (url, r) =>
      match hp : s.pending with
      | none =>
        have hstep : schedStep s (.ready ok) =
            { s with
              isSwapping := false
              inFlight := none
              mainSrc := some url
              mainPaused := !(!s.mainPaused && ok)
              released := releasedAfter s
              liveLog := s.liveLog ++ [r] } := by
          simp [schedStep, handleReady, hif, hp, releasedAfter]
        rw [hstep]
        constructor
        · intro h
          simp only [List.mem_append, List.mem_singleton] at h
          rcases h with h | rfl
          · exact Or.inl h
          · exact Or.inr (Or.inl ⟨url, hif⟩)
        · intro h
          rcases h with ⟨u, hu⟩ | hpend
          · simp at hu
          · simp only [hp] at hpend
            simp at hpend
      | some p =>
        have hstep : schedStep s (.ready ok) =
            { s with
              isSwapping := true
              pending := none
              inFlight := some (s.nextUrl, p)
              nextUrl := s.nextUrl + 1
              mainSrc := some url
              mainPaused := !(!s.mainPaused && ok)
              released := releasedAfter s
              liveLog := s.liveLog ++ [r] } := by
          simp [schedStep, handleReady, hif, hp, updateAudioSource, releasedAfter]
        rw [hstep]
        constructor
        · intro h
          simp only [List.mem_append, List.mem_singleton] at h
          rcases h with h | rfl
          · exact Or.inl h
          · exact Or.inr (Or.inl ⟨url, hif⟩)
        · intro h
          rcases h with ⟨u, hu⟩ | hpend
          · simp only [Option.some.injEq, Prod.mk.injEq] at hu
            exact Or.inl (Or.inr (hu.2 ▸ hp))
          · simp at hpend

/-- Over a whole run: a result in the final live log was already live,
was sitting in a slot at the start, or was presented during the run. -/
theorem schedRun_provenance (evs : List SchedEv) (s : SchedState) (x : Nat)
    (h : x ∈ (schedRun s evs).liveLog) :
    x ∈ s.liveLog ∨ SlotVal s x ∨ SchedEv.present x ∈ evs := by
  induction evs generalizing s with
  | nil => exact Or.inl h
  | cons e evs ih =>
    have hrun : schedRun s (e :: evs) = schedRun (schedStep s e) evs := rfl
    rw [hrun] at h
    rcases ih (schedStep s e) h with h1 | h2 | h3
    · rcases (schedStep_provenance s e x).1 h1 with h4 | h5
      · exact Or.inl h4
      · exact Or.inr (Or.inl h5)
    · rcases (schedStep_provenance s e x).2 h2 with h4 | h5
      · exact Or.inr (Or.inl h4)
      · rw [h5]
        exact Or.inr (Or.inr (List.mem_cons_self _ _))
    · exact Or.inr (Or.inr (List.mem_cons_of_mem _ h3))

/-! ## Estimator lemmas and claims -/

/-- An in-bounds getUint8 read returns the byte. -/
theorem getUint8?_lt (b : JSBuffer) (i : Nat) (h : i < b.len) :
    getUint8? b i = some (byteAt b i) := by
  simp [getUint8?, h]

/-- With at least 10 bytes every read of the header probe is in bounds,
so no RangeError is thrown while the scan offset is computed. -/
theorem id3Offset_isSome (b : JSBuffer) (h : 10 ≤ b.len) :
    (id3Offset b).isSome = true := by
  simp only [id3Offset,
    getUint8?_lt b 0 (by omega), getUint8?_lt b 1 (by omega),
    getUint8?_lt b 2 (by omega), getUint8?_lt b 6 (by omega),
    getUint8?_lt b 7 (by omega), getUint8?_lt b 8 (by omega),
    getUint8?_lt b 9 (by omega), Option.bind]
  split
  · split
    · split <;> simp
    · simp
  · simp

/-- A nonempty buffer whose first byte is not the metadata tag byte
skips nothing: the scan starts at 0 and nothing is thrown. -/
theorem id3Offset_no_tag (b : JSBuffer) (h : 0 < b.len)
    (h0 : byteAt b 0 ≠ 0x49) : id3Offset b = some 0 := by
  simp only [id3Offset, getUint8?_lt b 0 h, Option.bind, h0, if_false]

/-- C5, counterexample: on the empty buffer the estimator does not
return a string: the very first DataView read throws a RangeError
(modelled by `none`), against the claim that it never raises and
returns a string for every buffer, the empty one included. -/
theorem c5_empty_buffer_throws :
    getAudioDuration { len := 0, get := fun _ => 0 } = none := by decide

/-- C5 (amended): whenever the header probe reads stay in bounds — in
particular for every buffer of length at least 10, and for every
nonempty buffer that does not start with the metadata tag byte — the
estimator returns a duration string; and whenever no frame sync is
found, or the bitrate entry indexed by the sync is 0 (table index 0 or
15), the returned string is 00:00:00.  The original claim fails only on
the empty buffer and on buffers starting with a proper prefix of the
3-byte tag that are too short for the size field, where a RangeError
is thrown. -/
theorem c5_estimator_total_amended :
    (∀ b : JSBuffer, 10 ≤ b.len → (getAudioDuration b).isSome = true) ∧
    (∀ b : JSBuffer, 0 < b.len → byteAt b 0 ≠ 0x49 →
      (getAudioDuration b).isSome = true) ∧
    (∀ b : JSBuffer, ∀ st, id3Offset b = some st → findSync b st = none →
      getAudioDuration b = some "00:00:00") ∧
    (∀ b : JSBuffer, ∀ st i, id3Offset b = some st → findSync b st = some i →
      bitrates.getD ((byteAt b (i + 2) >>> 4) &&& 15) 0 = 0 →
      getAudioDuration b = some "00:00:00") := by
  refine ⟨fun b h => ?_, fun b h h0 => ?_, fun b st h1 h2 => ?_,
    fun b st i h1 h2 h3 => ?_⟩
  · simp [getAudioDuration, Option.isSome_map, id3Offset_isSome b h]
  · simp [getAudioDuration, id3Offset_no_tag b h h0]
  · rw [getAudioDuration, h1, Option.map_some', durationSeconds, h2,
      formatHMS_zero]
  · rw [getAudioDuration, h1, Option.map_some', durationSeconds, h2]
    simp only [h3]
    rw [if_neg (by omega), formatHMS_zero]

/-- C5, witness: a 10-byte all-zero buffer is accepted and, having no
frame sync, yields the zero duration. -/
theorem c5_estimator_total_amended_witness :
    (getAudioDuration { len := 10, get := fun _ => 0 }).isSome = true ∧
    getAudioDuration { len := 10, get := fun _ => 0 } = some "00:00:00" :=
  ⟨c5_estimator_total_amended.1 _ (by decide),
   c5_estimator_total_amended.2.2.1 _ 0 (by decide) (by decide)⟩

/-- C6: on a 10 000 000-byte buffer whose header probe succeeds and
whose first frame sync indexes table entry 9 (128 kbps), the estimator
computes 10 000 000 * 8 / (128 * 1000) = 625 seconds and renders
00:10:25, exactly as the claim states. -/
theorem c6_128kbps_duration (b : JSBuffer) (st i : Nat)
    (hlen : b.len = 10000000)
    (h1 : id3Offset b = some st)
    (h2 : findSync b st = some i)
    (h3 : (byteAt b (i + 2) >>> 4) &&& 15 = 9) :
    durationSeconds b st = ((10000000 : ℚ) * 8) / ((128 : ℚ) * 1000) ∧
    getAudioDuration b = some "00:10:25" := by
  have hdur : durationSeconds b st = ((10000000 : ℚ) * 8) / ((128 : ℚ) * 1000) := by
    rw [durationSeconds, h2]
    simp only [h3]
    have hbr : bitrates.getD 9 0 = 128 := by decide
    rw [hbr, if_pos (by omega), hlen]
    norm_num
  refine ⟨hdur, ?_⟩
  rw [getAudioDuration, h1, Option.map_some', hdur]
  have h625 : ((10000000 : ℚ) * 8) / ((128 : ℚ) * 1000) = 625 := by norm_num
  rw [h625, formatHMS_625]

/-- C6, witness: the concrete 10 000 000-byte buffer starting with the
frame header bytes ff e0 90 and zeros elsewhere. -/
theorem c6_128kbps_duration_witness :
    getAudioDuration
      { len := 10000000
        get := fun i => if i = 0 then 0xff else if i = 1 then 0xe0
          else if i = 2 then 0x90 else 0 } = some "00:10:25" :=
  (c6_128kbps_duration _ 0 0 (by decide) (by decide) (by decide)
    (by decide)).2

/-- C7, counterexample: a 10-byte buffer tagged 49 44 33 whose size
bytes are 00 00 00 80.  Bit 7 of the last size byte is set; the claim
says that bit is ignored, so scanning would start at 0 + 10 = 10, but
the source performs no masking and starts the scan at 128 + 10 = 138.
The spec-worded synch-safe reading, by contrast, yields 10. -/
theorem c7_no_mask_counterexample :
    id3Offset
        { len := 10
          get := fun i => if i = 0 then 0x49 else if i = 1 then 0x44
            else if i = 2 then 0x33 else if i = 9 then 0x80 else 0 } =
      some 138 ∧
    id3OffsetSyncSafeSpec
        { len := 10
          get := fun i => if i = 0 then 0x49 else if i = 1 then 0x44
            else if i = 2 then 0x33 else if i = 9 then 0x80 else 0 } =
      some 10 := by
  constructor <;> decide

/-- C7 (amended): with the metadata tag present and the header in
bounds, the scan starts at size + 10 where the size is read from bytes
6 to 9 as (b6 shl 21) or (b7 shl 14) or (b8 shl 7) or b9 with no
masking, so all 8 bits of each byte contribute.  This coincides with
the synch-safe low-7-bits reading of the claim exactly when bit 7 of
each of the four size bytes is clear, and size bytes 00 00 00 00 do
make scanning start at offset 10. -/
theorem c7_header_skip_amended (b : JSBuffer) (hlen : 10 ≤ b.len)
    (h0 : byteAt b 0 = 0x49) (h1 : byteAt b 1 = 0x44)
    (h2 : byteAt b 2 = 0x33) :
    id3Offset b =
      some ((((byteAt b 6 <<< 21) ||| (byteAt b 7 <<< 14)) |||
             (byteAt b 8 <<< 7) ||| byteAt b 9) + 10) ∧
    (byteAt b 6 < 128 → byteAt b 7 < 128 → byteAt b 8 < 128 →
      byteAt b 9 < 128 → id3Offset b = id3OffsetSyncSafeSpec b) ∧
    (byteAt b 6 = 0 → byteAt b 7 = 0 → byteAt b 8 = 0 → byteAt b 9 = 0 →
      id3Offset b = some 10) := by
  have hmask : ∀ x : Nat, x < 128 → x &&& 0x7f = x := by
    intro x hx
    have h2p : x < 2 ^ 7 := by omega
    have := Nat.and_pow_two_sub_one_of_lt_two_pow h2p
    norm_num at this
    exact this
  have hcode : id3Offset b =
      some ((((byteAt b 6 <<< 21) ||| (byteAt b 7 <<< 14)) |||
             (byteAt b 8 <<< 7) ||| byteAt b 9) + 10) := by
    simp [id3Offset,
      getUint8?_lt b 0 (by omega), getUint8?_lt b 1 (by omega),
      getUint8?_lt b 2 (by omega), getUint8?_lt b 6 (by omega),
      getUint8?_lt b 7 (by omega), getUint8?_lt b 8 (by omega),
      getUint8?_lt b 9 (by omega), h0, h1, h2]
  refine ⟨hcode, fun m6 m7 m8 m9 => ?_, fun z6 z7 z8 z9 => ?_⟩
  · have hspec : id3OffsetSyncSafeSpec b =
        some (((((byteAt b 6 &&& 0x7f) <<< 21) |||
                ((byteAt b 7 &&& 0x7f) <<< 14)) |||
               ((byteAt b 8 &&& 0x7f) <<< 7) ||| (byteAt b 9 &&& 0x7f)) + 10) := by
      simp [id3OffsetSyncSafeSpec,
        getUint8?_lt b 0 (by omega), getUint8?_lt b 1 (by omega),
        getUint8?_lt b 2 (by omega), getUint8?_lt b 6 (by omega),
        getUint8?_lt b 7 (by omega), getUint8?_lt b 8 (by omega),
        getUint8?_lt b 9 (by omega), h0, h1, h2]
    rw [hcode, hspec, hmask _ m6, hmask _ m7, hmask _ m8, hmask _ m9]
  · rw [hcode, z6, z7, z8, z9]
    decide

/-- C7, witness for the amended claim: a 10-byte buffer tagged
49 44 33 with all-zero size bytes starts its scan at offset 10. -/
theorem c7_header_skip_amended_witness :
    id3Offset
        { len := 10
          get := fun i => if i = 0 then 0x49 else if i = 1 then 0x44
            else if i = 2 then 0x33 else 0 } = some 10 :=
  (c7_header_skip_amended _ (by decide) (by decide) (by decide)
    (by decide)).2.2 (by decide) (by decide) (by decide) (by decide)

/-! ## Scheduler claims -/

/-- A state with the swap flag down has no preload in flight. -/
theorem inFlight_none_of_not_swapping (s : SchedState) (h : SchedInv s)
    (hidle : s.isSwapping = false) : s.inFlight = none := by
  rcases hif : s.inFlight with _ | p
  · rfl
  · have := h.flagIff.mpr (by simp [hif])
    rw [this] at hidle
    cases hidle

/-- C1: from any reachable state with no swap running, presenting R1
and then R2 while the preload of R1 is still in flight leaves the preload of R1 in flight with R2 coalesced as pending
and nothing live yet; the first completion swaps R1 live and only then
starts preloading R2; the second completion swaps R2 live.  The run
performs exactly two live swaps, in the order R1 then R2, ending on R2,
so an older result never goes live after a newer one. -/
theorem c1_two_request_coalescing (evs0 : List SchedEv) (s : SchedState)
    (r1 r2 : Nat) (ok1 ok2 : Bool)
    (hs : schedRun schedInit evs0 = s)
    (hidle : s.isSwapping = false) :
    (schedRun s [.present r1, .present r2]).inFlight = some (s.nextUrl, r1) ∧
    (schedRun s [.present r1, .present r2]).pending = some r2 ∧
    (schedRun s [.present r1, .present r2]).liveLog = s.liveLog ∧
    (schedRun s [.present r1, .present r2, .ready ok1]).liveLog =
      s.liveLog ++ [r1] ∧
    (schedRun s [.present r1, .present r2, .ready ok1]).inFlight =
      some (s.nextUrl + 1, r2) ∧
    (schedRun s [.present r1, .present r2, .ready ok1]).pending = none ∧
    (schedRun s [.present r1, .present r2, .ready ok1, .ready ok2]).liveLog =
      s.liveLog ++ [r1, r2] := by
  have hinv : SchedInv s := hs ▸ schedInv_reachable evs0
  have hif : s.inFlight = none := inFlight_none_of_not_swapping s hinv hidle
  have hB : schedRun s [.present r1, .present r2] =
      { s with
        isSwapping := true
        pending := some r2
        inFlight := some (s.nextUrl, r1)
        nextUrl := s.nextUrl + 1 } := by
    simp [schedRun, schedStep, updateAudioSource, hidle]
  have hC : schedRun s [.present r1, .present r2, .ready ok1] =
      { s with
        isSwapping := true
        pending := none
        inFlight := some (s.nextUrl + 1, r2)
        nextUrl := s.nextUrl + 2
        mainSrc := some s.nextUrl
        mainPaused := !(!s.mainPaused && ok1)
        released :=
          match s.mainSrc with
          | some u => s.released ++ [u]
          | none => s.released
        liveLog := s.liveLog ++ [r1] } := by
    have : schedRun s [.present r1, .present r2, .ready ok1] =
        schedStep (schedRun s [.present r1, .present r2]) (.ready ok1) := rfl
    rw [this, hB]
    simp [schedStep, handleReady, updateAudioSource]
  have hD : (schedRun s [.present r1, .present r2, .ready ok1, .ready ok2]).liveLog =
      s.liveLog ++ [r1, r2] := by
    have : schedRun s [.present r1, .present r2, .ready ok1, .ready ok2] =
        schedStep (schedRun s [.present r1, .present r2, .ready ok1]) (.ready ok2) := rfl
    rw [this, hC]
    simp [schedStep, handleReady]
  exact ⟨by rw [hB], by rw [hB], by rw [hB], by rw [hC], by rw [hC],
    by rw [hC], hD⟩

/-- C1, witness: the run that presents result 7, coalesces result 9
during the preload of 7, and completes both swaps, starting from the
mount state. -/
theorem c1_two_request_coalescing_witness :
    (schedRun schedInit
        [.present 7, .present 9, .ready true, .ready true]).liveLog =
      [7, 9] :=
  (c1_two_request_coalescing [] schedInit 7 9 true true rfl
    rfl).2.2.2.2.2.2

/-- C2: in every reachable state the swap flag and the in-flight
preload coincide, so at most one request is in flight (the two slots of
the machine are single options by construction, and the flag that gates
new preloads tracks the in-flight one exactly); a present call arriving
while one is in flight only overwrites the pending slot with the newest
result, keeping everything else unchanged; and a pending result that is
superseded by a newer present call is never made live afterwards unless
it is presented again: it is discarded without being presented. -/
theorem c2_single_flight_last_write_wins (evs0 : List SchedEv)
    (s : SchedState) (hs : schedRun schedInit evs0 = s) :
    (s.isSwapping = true ↔ s.inFlight.isSome = true) ∧
    (∀ r, s.isSwapping = true →
      updateAudioSource s r = { s with pending := some r }) ∧
    (∀ r p evs, s.isSwapping = true → s.pending = some p → p ≠ r →
      s.inFlight.map Prod.snd ≠ some p → p ∉ s.liveLog →
      SchedEv.present p ∉ evs →
      p ∉ (schedRun (updateAudioSource s r) evs).liveLog) := by
  have hinv : SchedInv s := hs ▸ schedInv_reachable evs0
  refine ⟨hinv.flagIff, fun r h => by simp [updateAudioSource, h],
    fun r p evs hsw hp hne hfl hlive hpres hmem => ?_⟩
  have hstep : updateAudioSource s r = { s with pending := some r } := by
    simp [updateAudioSource, hsw]
  rw [hstep] at hmem
  rcases schedRun_provenance evs _ p hmem with h1 | h2 | h3
  · exact hlive h1
  · rcases h2 with ⟨u, hu⟩ | hpend
    · exact hfl (by rw [hu]; rfl)
    · simp only [Option.some.injEq] at hpend
      exact hne hpend.symm
  · exact hpres h3

/-- C2, witness: result 3 is in flight, result 2 is pending, result 4
supersedes 2; after both completions 2 was never made live. -/
theorem c2_single_flight_last_write_wins_witness :
    2 ∉ (schedRun
        (updateAudioSource (schedRun schedInit [.present 3, .present 2]) 4)
        [.ready true, .ready true]).liveLog :=
  (c2_single_flight_last_write_wins [.present 3, .present 2] _ rfl).2.2
    4 2 [.ready true, .ready true] (by decide) (by decide) (by decide)
    (by decide) (by decide) (by decide)

/-- C3: every completed preload (handleReady on a state with a preload
in flight) captures the current position and play state of the visible
player before touching it, binds the new URL to it, writes the captured
position back (load resets the element, so the net effect is that the
position is preserved), and resumes playback only when the player was
playing; a rejected play() is caught and only leaves the player paused:
the swap itself still completes, with the new resource live and the
swap logged. -/
theorem c3_swap_preservation (s : SchedState) (url r : Nat) (ok : Bool)
    (hif : s.inFlight = some (url, r)) :
    (handleReady s ok).mainSrc = some url ∧
    (handleReady s ok).mainTime = s.mainTime ∧
    (handleReady s ok).liveLog = s.liveLog ++ [r] ∧
    (s.mainPaused = false → (handleReady s ok).mainPaused = !ok) ∧
    (s.mainPaused = true → (handleReady s ok).mainPaused = true) ∧
    (ok = false → (handleReady s ok).mainPaused = true ∧
      (handleReady s ok).mainSrc = some url ∧
      (handleReady s ok).liveLog = s.liveLog ++ [r]) := by
  cases hp : s.pending with
  | none =>
    have hstep : handleReady s ok =
        { s with
          isSwapping := false
          inFlight := none
          mainSrc := some url
          mainPaused := !(!s.mainPaused && ok)
          released := releasedAfter s
          liveLog := s.liveLog ++ [r] } := by
      simp [handleReady, hif, hp, releasedAfter]
    rw [hstep]
    refine ⟨rfl, rfl, rfl, fun h => by simp [h], fun h => by simp [h],
      fun h => ⟨by simp [h], rfl, rfl⟩⟩
  | some p =>
    have hstep : handleReady s ok =
        { s with
          isSwapping := true
          pending := none
          inFlight := some (s.nextUrl, p)
          nextUrl := s.nextUrl + 1
          mainSrc := some url
          mainPaused := !(!s.mainPaused && ok)
          released := releasedAfter s
          liveLog := s.liveLog ++ [r] } := by
      simp [handleReady, hif, hp, updateAudioSource, releasedAfter]
    rw [hstep]
    refine ⟨rfl, rfl, rfl, fun h => by simp [h], fun h => by simp [h],
      fun h => ⟨by simp [h], rfl, rfl⟩⟩

/-- C3, witness: a playing state swaps in URL 0 for result 5 while
play() rejects; the swap completes and the player is left paused. -/
theorem c3_swap_preservation_witness :
    (handleReady
        { schedInit with
          isSwapping := true
          inFlight := some (0, 5)
          mainPaused := false } false).mainSrc = some 0 ∧
    (handleReady
        { schedInit with
          isSwapping := true
          inFlight := some (0, 5)
          mainPaused := false } false).mainPaused = true ∧
    (handleReady
        { schedInit with
          isSwapping := true
          inFlight := some (0, 5)
          mainPaused := false } false).liveLog = [5] :=
  have h := c3_swap_preservation
    { schedInit with
      isSwapping := true
      inFlight := some (0, 5)
      mainPaused := false } 0 5 false rfl
  ⟨h.1, (h.2.2.2.2.2 rfl).1, h.2.2.1⟩

/-- C4: after any reachable run that has performed N live swaps (N
positive), exactly N - 1 object URLs have been revoked: every resource
that was ever live except the currently live one.  No URL is ever
revoked twice (the revocation list has no duplicates and the live URL
is never in it), and the step that completes a swap revokes the
superseded live URL in the same handleReady call that makes its
successor live, so a superseded resource is released immediately as the
new one goes live. -/
theorem c4_resource_lifecycle (evs : List SchedEv) (s : SchedState)
    (N : Nat) (hs : schedRun schedInit evs = s)
    (hN : s.liveLog.length = N) (hpos : 0 < N) :
    s.released.length = N - 1 ∧
    s.released.Nodup ∧
    (∀ u, s.mainSrc = some u → u ∉ s.released) ∧
    (∀ ok url r u, s.inFlight = some (url, r) → s.mainSrc = some u →
      (handleReady s ok).released = s.released ++ [u] ∧
      (handleReady s ok).mainSrc = some url) := by
  have hinv : SchedInv s := hs ▸ schedInv_reachable evs
  have hsome : s.mainSrc.isSome = true := by
    apply hinv.liveSrc
    intro hnil
    rw [hnil] at hN
    simp at hN
    omega
  have hlen : s.released.length = N - 1 := by
    have hc := hinv.count
    rcases hsrc : s.mainSrc with _ | u
    · rw [hsrc] at hsome
      cases hsome
    · rw [hsrc] at hc
      simp only [srcCount] at hc
      omega
  refine ⟨hlen, hinv.nodup, fun u hu => (hinv.live u hu).2,
    fun ok url r u hif hsrc => ?_⟩
  have hrel : releasedAfter s = s.released ++ [u] := by
    rw [releasedAfter, hsrc]
  cases hp : s.pending with
  | none =>
    have hstep : handleReady s ok =
        { s with
          isSwapping := false
          inFlight := none
          mainSrc := some url
          mainPaused := !(!s.mainPaused && ok)
          released := releasedAfter s
          liveLog := s.liveLog ++ [r] } := by
      simp [handleReady, hif, hp, releasedAfter]
    rw [hstep]
    exact ⟨hrel, rfl⟩
  | some p =>
    have hstep : handleReady s ok =
        { s with
          isSwapping := true
          pending := none
          inFlight := some (s.nextUrl, p)
          nextUrl := s.nextUrl + 1
          mainSrc := some url
          mainPaused := !(!s.mainPaused && ok)
          released := releasedAfter s
          liveLog := s.liveLog ++ [r] } := by
      simp [handleReady, hif, hp, updateAudioSource, releasedAfter]
    rw [hstep]
    exact ⟨hrel, rfl⟩

/-- C4, witness: three presented results swapped live one after the
other from the mount state; exactly the two superseded URLs were
revoked, without duplicates. -/
theorem c4_resource_lifecycle_witness :
    (schedRun schedInit
        [.present 0, .ready true, .present 1, .ready true, .present 2,
         .ready true]).released.length = 2 ∧
    (schedRun schedInit
        [.present 0, .ready true, .present 1, .ready true, .present 2,
         .ready true]).released.Nodup :=
  have h := c4_resource_lifecycle
    [.present 0, .ready true, .present 1, .ready true, .present 2,
     .ready true] _ 3 rfl (by decide) (by decide)
  ⟨h.1, h.2.1⟩

/-! ## Worker and orchestrator claims -/

/-- C8: the session combine wrapper fails exactly when the engine
result lacks the bytes payload field, throwing that very value as the
error; when the field is present it returns the byte buffer together
with the format tag of the engine result. -/
theorem c8_combine_structural_failure (r : EngineCombineResult) :
    ((∃ e, workerCombine r = .error e) ↔ r.bytes = none) ∧
    (∀ bs, r.bytes = some bs →
      workerCombine r = .ok { bytes := bs, type := r.type }) := by
  cases hb : r.bytes with
  | none =>
    constructor
    · constructor
      · intro _
        rfl
      · intro _
        exact ⟨.engineError r, by simp [workerCombine, hb]⟩
    · intro bs hbs
      simp at hbs
  | some bs0 =>
    constructor
    · constructor
      · rintro ⟨e, he⟩
        simp [workerCombine, hb] at he
      · intro hnone
        simp at hnone
    · intro bs hbs
      cases hbs
      simp [workerCombine, hb]

/-- C8, witness: a result carrying bytes is returned as is, and a
result lacking the payload field fails. -/
theorem c8_combine_structural_failure_witness :
    workerCombine { bytes := some [1, 2], type := .Mpeg } =
      .ok { bytes := [1, 2], type := .Mpeg } ∧
    ∃ e, workerCombine { bytes := none, type := .Wav } = .error e :=
  ⟨(c8_combine_structural_failure { bytes := some [1, 2], type := .Mpeg }).2
      [1, 2] rfl,
   (c8_combine_structural_failure { bytes := none, type := .Wav }).1.mpr rfl⟩

/-- C9, counterexample: a state holding a combiner session and a live
object URL (URL 5).  The claim says reset calls the session release
exactly once and releases the live playable resource; the source reset
only nulls the ref and clears the list, so the free-call count stays 0
and URL 5 is never revoked. -/
theorem c9_reset_counterexample :
    ¬ ((reset ⟨[⟨"a", "t", "00:00:00", 100⟩], some 0, "x",
          { schedInit with mainSrc := some 5, nextUrl := 6, liveLog := [0] },
          0, 1⟩).freeCalls =
        (⟨[⟨"a", "t", "00:00:00", 100⟩], some 0, "x",
          { schedInit with mainSrc := some 5, nextUrl := 6, liveLog := [0] },
          0, 1⟩ : AppState).freeCalls + 1 ∧
       5 ∈ (reset ⟨[⟨"a", "t", "00:00:00", 100⟩], some 0, "x",
          { schedInit with mainSrc := some 5, nextUrl := 6, liveLog := [0] },
          0, 1⟩).sched.released) := by
  intro h
  exact absurd h.1 (by decide)

/-- C9 (amended): reset clears the track list, drops the combiner
handle (without invoking the engine-side release) and clears the file
input; it performs no release of any kind: the free-call count, the
combine-call count and the whole scheduler state — live URL, revoked
URLs, pending and in-flight slots — are left untouched. -/
theorem c9_reset_amended (st : AppState) :
    (reset st).files = [] ∧
    (reset st).combiner = none ∧
    (reset st).fileInputValue = "" ∧
    (reset st).freeCalls = st.freeCalls ∧
    (reset st).combineCalls = st.combineCalls ∧
    (reset st).sched = st.sched :=
  ⟨rfl, rfl, rfl, rfl, rfl, rfl⟩

/-- C10: a volume change when no combiner is held (before any upload or
after reset) only rewrites the files list: order and length are kept,
id, name and duration of every entry are untouched, entries whose id
differs from the changed one are untouched entirely, the matching entry
gets exactly the new volume, and no combine call, no swap request and
no scheduler state change happens. -/
theorem c10_volume_change_no_combiner (st : AppState) (id : String)
    (v : Nat) (mix : Nat) (h : st.combiner = none) :
    (updateVolume st id v mix).files =
      st.files.map (fun f => if f.id = id then { f with volume := v } else f) ∧
    (updateVolume st id v mix).files.length = st.files.length ∧
    (∀ i : Nat, ((updateVolume st id v mix).files[i]?).map AudioFile.id =
      (st.files[i]?).map AudioFile.id) ∧
    (∀ i : Nat, ((updateVolume st id v mix).files[i]?).map AudioFile.name =
      (st.files[i]?).map AudioFile.name) ∧
    (∀ i : Nat, ((updateVolume st id v mix).files[i]?).map AudioFile.duration =
      (st.files[i]?).map AudioFile.duration) ∧
    (∀ (i : Nat) (f : AudioFile), st.files[i]? = some f → f.id ≠ id →
      (updateVolume st id v mix).files[i]? = some f) ∧
    (∀ (i : Nat) (f : AudioFile), st.files[i]? = some f → f.id = id →
      (updateVolume st id v mix).files[i]? = some { f with volume := v }) ∧
    (updateVolume st id v mix).sched = st.sched ∧
    (updateVolume st id v mix).combineCalls = st.combineCalls ∧
    (updateVolume st id v mix).combiner = none ∧
    (updateVolume st id v mix).freeCalls = st.freeCalls := by
  have hfiles : (updateVolume st id v mix).files =
      st.files.map (fun f => if f.id = id then { f with volume := v } else f) := by
    simp [updateVolume, h]
  have hsched : (updateVolume st id v mix).sched = st.sched := by
    simp [updateVolume, h]
  have hcc : (updateVolume st id v mix).combineCalls = st.combineCalls := by
    simp [updateVolume, h]
  have hco : (updateVolume st id v mix).combiner = none := by
    simp [updateVolume, h]
  have hfc : (updateVolume st id v mix).freeCalls = st.freeCalls := by
    simp [updateVolume, h]
  refine ⟨hfiles, by rw [hfiles]; simp, fun i => ?_, fun i => ?_, fun i => ?_,
    fun i f hf hne => ?_, fun i f hf heq => ?_, hsched, hcc, hco, hfc⟩
  · rw [hfiles, List.getElem?_map]
    cases st.files[i]? with
    | none => rfl
    | some f => by_cases hc : f.id = id <;> simp [hc]
  · rw [hfiles, List.getElem?_map]
    cases st.files[i]? with
    | none => rfl
    | some f => by_cases hc : f.id = id <;> simp [hc]
  · rw [hfiles, List.getElem?_map]
    cases st.files[i]? with
    | none => rfl
    | some f => by_cases hc : f.id = id <;> simp [hc]
  · rw [hfiles, List.getElem?_map, hf]
    simp [hne]
  · rw [hfiles, List.getElem?_map, hf]
    simp [heq]

/-- C10, witness: with no combiner, changing the volume of track a to
30 rewrites only that volume and issues no combine call. -/
theorem c10_volume_change_no_combiner_witness :
    (updateVolume
        (⟨[⟨"a", "x", "00:00:01", 100⟩, ⟨"b", "y", "00:00:02", 100⟩],
          none, "", schedInit, 0, 0⟩ : AppState) "a" 30 99).files =
      [⟨"a", "x", "00:00:01", 30⟩, ⟨"b", "y", "00:00:02", 100⟩] ∧
    (updateVolume
        (⟨[⟨"a", "x", "00:00:01", 100⟩, ⟨"b", "y", "00:00:02", 100⟩],
          none, "", schedInit, 0, 0⟩ : AppState) "a" 30 99).combineCalls = 0 :=
  have h := c10_volume_change_no_combiner
    (⟨[⟨"a", "x", "00:00:01", 100⟩, ⟨"b", "y", "00:00:02", 100⟩],
      none, "", schedInit, 0, 0⟩ : AppState) "a" 30 99 rfl
  ⟨h.1.trans (by decide), h.2.2.2.2.2.2.2.2.1⟩
